import Mathlib

/-!
Verification of the PokemonKnower web application's core behaviors: the
catalog search/filter/paginate pipeline, the deterministic fallback
predictor, and the React frontend's search request construction.

The Flask backend (`app.py`) is not part of the available sources; its
search engine and fallback predictor are modelled from the specification
(each such definition is marked `Modelled from the spec:`).  The React
frontend (`src/App.js`) is embedded from the source directly.
-/

/-- A stat record for one species.  Modelled from the spec: `app.py` and
`pokemon.csv` are absent from the sources; §3 of the spec describes the row
(`number`, `name`, `main_type`, optional `secondary_type`, weight, height
and stat columns).  §4.1 states that a record passes a numeric bound "only
if the corresponding field is present", so the numeric columns are
optional here; the float-valued weight/height columns are modelled as
`Nat` since only their ordering is ever used. -/
structure PokemonRecord where
  number : Nat
  name : String
  main_type : String
  secondary_type : Option String
  weight : Option Nat
  height : Option Nat
  attack : Option Nat
  defense : Option Nat
  stamina : Option Nat
  speed : Option Nat
deriving DecidableEq

/-- Modelled from the spec: §3 `FilterCriteria` — one optional predicate
per filter field; `none` means "no constraint", which §3 distinguishes
from a bound of zero. -/
structure FilterCriteria where
  q : Option String := none
  type : Option String := none
  min_attack : Option Nat := none
  min_defense : Option Nat := none
  min_stamina : Option Nat := none
  min_weight : Option Nat := none
  max_weight : Option Nat := none
  min_height : Option Nat := none
  max_height : Option Nat := none
deriving DecidableEq

/-- Modelled from the spec: §3 `PageResult` — one page of filtered results
plus pagination metadata. -/
structure PageResult where
  items : List PokemonRecord
  page : Nat
  page_size : Nat
  total_count : Nat
  total_pages : Nat
  has_prev : Bool
  has_next : Bool
deriving DecidableEq

/-- Modelled from the spec: §3 `PredictionResult` — label, confidence in
[0,100], three ranked alternatives, and an optional enriched stat block. -/
structure PredictionResult where
  label : String
  confidence : Nat
  top3 : List (String × Nat)
  stats : Option PokemonRecord
deriving DecidableEq

/-- Modelled from the spec: §3 the Catalog — the immutable in-memory label
set (`class_indices.json`) and stat records (`pokemon.csv`). -/
structure Catalog where
  labels : List String
  records : List PokemonRecord
deriving DecidableEq

/-- The ambient conditions of one call: wall-clock time and how many calls
preceded it.  The fallback predictor receives them only so that the
spec's determinism property ("no dependence on time or call count") can be
stated; per §9 it must use a stable seedless content hash and ignore
them. -/
structure CallEnv where
  time : Nat
  callCount : Nat
deriving DecidableEq

/-- ASCII lowering of one character, as Python's `str.lower` acts on the
ASCII range used by the dataset's names and types. -/
def lowerC (c : Char) : Char :=
  if 'A' ≤ c && c ≤ 'Z' then Char.ofNat (c.toNat + 32) else c

/-- Case-folded character sequence of a string. -/
def lowerStr (s : String) : List Char := s.data.map lowerC

/-- `p` is an initial segment of `l`. -/
def isPrefixL (p l : List Char) : Bool :=
  match p, l with
  | [], _ => true
  | _ :: _, [] => false
  | a :: p', b :: l' => a == b && isPrefixL p' l'

/-- `p` occurs contiguously inside `l` (substring test). -/
def containsSub (p l : List Char) : Bool :=
  match l with
  | [] => p.isEmpty
  | _ :: t => isPrefixL p l || containsSub p t

/-- Case-insensitive equality of two names (§3: `name` is unique,
case-insensitive for lookup). -/
def nameMatches (a b : String) : Bool := lowerStr a == lowerStr b

/-- Modelled from the spec: §4.1 name predicate — case-insensitive
substring match against `name`; an empty or absent criterion matches
all records. -/
def namePred (q : Option String) (r : PokemonRecord) : Bool :=
  match q with
  | none => true
  | some s => if s.data.isEmpty then true else containsSub (lowerStr s) (lowerStr r.name)

/-- Modelled from the spec: §4.1 type predicate — exact case-insensitive
match against `main_type` or `secondary_type`; empty or absent matches
all. -/
def typePred (t : Option String) (r : PokemonRecord) : Bool :=
  match t with
  | none => true
  | some s =>
    if s.data.isEmpty then true
    else
      nameMatches s r.main_type ||
        (match r.secondary_type with
         | some st => nameMatches s st
         | none => false)

/-- Modelled from the spec: §4.1 numeric lower bound — inclusive; a record
passes only if the field is present and satisfies it; a missing bound is
vacuously true. -/
def minBound (bound : Option Nat) (field : Option Nat) : Bool :=
  match bound with
  | none => true
  | some m =>
    match field with
    | none => false
    | some v => decide (m ≤ v)

/-- Modelled from the spec: §4.1 numeric upper bound — inclusive, with the
same presence condition as `minBound`. -/
def maxBound (bound : Option Nat) (field : Option Nat) : Bool :=
  match bound with
  | none => true
  | some m =>
    match field with
    | none => false
    | some v => decide (v ≤ m)

/-- Modelled from the spec: §4.1 — all predicates ANDed, no OR semantics
across filter fields. -/
def matchesCriteria (c : FilterCriteria) (r : PokemonRecord) : Bool :=
  namePred c.q r && typePred c.type r &&
  minBound c.min_attack r.attack && minBound c.min_defense r.defense &&
  minBound c.min_stamina r.stamina &&
  minBound c.min_weight r.weight && maxBound c.max_weight r.weight &&
  minBound c.min_height r.height && maxBound c.max_height r.height

/-- Modelled from the spec: §4.1 — the filtered sequence, in the
collection's insertion order (filtering must not reorder). -/
def filteredRecords (records : List PokemonRecord) (c : FilterCriteria) : List PokemonRecord :=
  records.filter (fun r => matchesCriteria c r)

/-- Modelled from the spec: §3 — `total_pages = ceil(total_count /
page_size)`, minimum 1. -/
def totalPages (total psize : Nat) : Nat :=
  max 1 ((total + psize - 1) / psize)

/-- Modelled from the spec: §4.1 pagination — the 1-indexed page `page`'s
slice of the filtered sequence; a page below 1 is clamped to 1, and a page
beyond the data yields an empty slice. -/
def pageItems (F : List α) (page psize : Nat) : List α :=
  (F.drop ((max 1 page - 1) * psize)).take psize

/-- Modelled from the spec: §4.1 `search(records, criteria, page,
page_size) -> PageResult` — filter, count, paginate; the reported `page`
is clamped to `[1, total_pages]` (§3 invariant); `has_next` is false
beyond the last page. -/
def search (records : List PokemonRecord) (c : FilterCriteria) (page psize : Nat) : PageResult :=
  let F := filteredRecords records c
  let tp := totalPages F.length psize
  { items := pageItems F page psize
    page := min (max 1 page) tp
    page_size := psize
    total_count := F.length
    total_pages := tp
    has_prev := decide (1 < min (max 1 page) tp)
    has_next := decide (max 1 page < tp) }

/-- Parse a decimal numeral, yielding `none` on any malformed (empty or
non-digit) input — the leniency policy of §4.1/§7 for numeric filter
fields. -/
def digitsToNat (l : List Char) (acc : Nat) : Nat :=
  match l with
  | [] => acc
  | c :: t => digitsToNat t (acc * 10 + (c.toNat - 48))

/-- Whether a character is a decimal digit. -/
def isDigitC (c : Char) : Bool := '0' ≤ c && c ≤ '9'

/-- Lenient numeric parse of a raw query-string value: digits-only strings
parse; everything else is `none`. -/
def parseNat (s : String) : Option Nat :=
  if s.data ≠ [] && s.data.all isDigitC then some (digitsToNat s.data 0) else none

/-- Modelled from the spec: §6 — the raw search query surface as produced
by the HTTP layer, every field an uninterpreted string. -/
structure RawQuery where
  q : Option String := none
  type : Option String := none
  min_attack : Option String := none
  min_defense : Option String := none
  min_stamina : Option String := none
  min_weight : Option String := none
  max_weight : Option String := none
  min_height : Option String := none
  max_height : Option String := none
deriving DecidableEq

/-- A raw bound string becomes a numeric bound; absent or malformed input
becomes "no constraint" (§7: degrade, never fail the request). -/
def boundOfRaw (o : Option String) : Option Nat :=
  match o with
  | none => none
  | some s => parseNat s

/-- Modelled from the spec: §4.1/§7 — build `FilterCriteria` from the raw
request, treating each malformed numeric value as an absent bound. -/
def criteriaOfRaw (r : RawQuery) : FilterCriteria :=
  { q := r.q
    type := r.type
    min_attack := boundOfRaw r.min_attack
    min_defense := boundOfRaw r.min_defense
    min_stamina := boundOfRaw r.min_stamina
    min_weight := boundOfRaw r.min_weight
    max_weight := boundOfRaw r.max_weight
    min_height := boundOfRaw r.min_height
    max_height := boundOfRaw r.max_height }

/-- Modelled from the spec: the whole search request path — parse the raw
query leniently, then run the filter engine.  Total: no input makes it
fail. -/
def searchRaw (records : List PokemonRecord) (r : RawQuery) (page psize : Nat) : PageResult :=
  search records (criteriaOfRaw r) page psize

/-- Modelled from the spec: §4.2 — a stable, seedless content hash of the
image bytes (a 2^40-truncated polynomial digest stands in for the content
digest). -/
def hashBytes (b : List Nat) : Nat :=
  b.foldl (fun h x => (h * 131 + x % 256) % 1099511627776) 0

/-- Modelled from the spec: §4.2 `predict_fallback(image_bytes, catalog)`
— primary label at `hash mod label-count`; confidence `65 + hash % 26`
(the 65–90 band); two further hash-derived labels at the successor indices
with strictly lower, descending confidences; stat enrichment by
case-insensitive catalog lookup, `none` when absent.  The `CallEnv`
argument is deliberately unused: §8/§9 require the result to depend only
on the bytes and the catalog. -/
def predict_fallback (env : CallEnv) (b : List Nat) (cat : Catalog) : PredictionResult :=
  let h := hashBytes b
  let n := cat.labels.length
  let l1 := cat.labels.getD (h % n) ""
  let l2 := cat.labels.getD ((h + 1) % n) ""
  let l3 := cat.labels.getD ((h + 2) % n) ""
  let c1 := 65 + h % 26
  let c2 := c1 - (1 + h % 5)
  let c3 := c2 - (1 + (h / 5) % 5)
  { label := l1
    confidence := c1
    top3 := [(l1, c1), (l2, c2), (l3, c3)]
    stats := cat.records.find? (fun rec => nameMatches rec.name l1) }

/-- Modelled from the spec: §7/§6 — the bad-input condition: unrecognized
image encoding or unreadable bytes, the one failure the predict path
signals. -/
inductive PredictError where
  | badInput
deriving DecidableEq

/-- The classifier's raw output at the §4.3 boundary, already normalized
to the [0,100] confidence range. -/
structure RawPred where
  label : String
  confidence : Nat
  top3 : List (String × Nat)
deriving DecidableEq

/-- Modelled from the spec: §6 — the allow-list of image encodings,
recognized by content signature (PNG, JPEG, GIF). -/
def pngMagic : List Nat := [137, 80, 78, 71]

/-- JPEG content signature. -/
def jpegMagic : List Nat := [255, 216, 255]

/-- GIF content signature. -/
def gifMagic : List Nat := [71, 73, 70, 56]

/-- Modelled from the spec: §6/§7 — image bytes are readable iff they
carry a signature from the allow-list. -/
def isValidImage (b : List Nat) : Bool :=
  pngMagic.isPrefixOf b || jpegMagic.isPrefixOf b || gifMagic.isPrefixOf b

/-- Modelled from the spec: §4.3(c) — join the classifier's label against
the catalog for stat enrichment. -/
def enrich (cat : Catalog) (rp : RawPred) : PredictionResult :=
  { label := rp.label
    confidence := rp.confidence
    top3 := rp.top3
    stats := cat.records.find? (fun rec => nameMatches rec.name rp.label) }

/-- Modelled from the spec: §4.3/§7 — the predict path.  `classifier` is
the opaque trained model: `none` when the artifact could not be loaded,
and its inner `Option` is `none` on invocation failure.  Unreadable bytes
are the only error; every model-side failure switches locally to the
deterministic fallback and is surfaced as an ordinary result. -/
def predict (classifier : Option (List Nat → Option RawPred)) (env : CallEnv)
    (b : List Nat) (cat : Catalog) : Except PredictError PredictionResult :=
  if isValidImage b then
    match classifier with
    | some f =>
      match f b with
      | some rp => Except.ok (enrich cat rp)
      | none => Except.ok (predict_fallback env b cat)
    | none => Except.ok (predict_fallback env b cat)
  else
    Except.error PredictError.badInput

/-- The React component's filter state (src/App.js lines 11–20): every
field is a string, as in the DOM. -/
structure AppFilters where
  type : String
  minWeight : String
  maxWeight : String
  minHeight : String
  maxHeight : String
  minAttack : String
  minDefense : String
  minStamina : String
deriving DecidableEq

/-- The initial filter state of src/App.js lines 11–20: empty strings for
type and the weight/height bounds, the string "0" for the three stat
minimums. -/
def initialFilters : AppFilters :=
  { type := ""
    minWeight := ""
    maxWeight := ""
    minHeight := ""
    maxHeight := ""
    minAttack := "0"
    minDefense := "0"
    minStamina := "0" }

/-- The search-related component state of src/App.js. -/
structure AppState where
  searchResults : List PokemonRecord
  isLoading : Bool
  searchQuery : String
  showFilters : Bool
  filters : AppFilters
deriving DecidableEq

/-- JavaScript truthiness of a string: truthy iff non-empty (so "0" is
truthy). -/
def truthy (s : String) : Bool := s != ""

/-- Whitespace as removed by JavaScript's `String.prototype.trim`. -/
def wsChar (c : Char) : Bool := c == ' ' || c == '\t' || c == '\n' || c == '\r'

/-- `searchQuery.trim()` of src/App.js line 26: strip leading and trailing
whitespace. -/
def jsTrim (s : String) : String :=
  String.mk (((s.data.dropWhile (fun c => wsChar c)).reverse.dropWhile
    (fun c => wsChar c)).reverse)

/-- The `URLSearchParams` built by `handleSearch` (src/App.js lines
30–39): `q` always, then each filter appended exactly when its string
value is truthy, in source order. -/
def buildSearchParams (q : String) (f : AppFilters) : List (String × String) :=
  [("q", q)]
    ++ (if truthy f.type then [("type", f.type)] else [])
    ++ (if truthy f.minWeight then [("min_weight", f.minWeight)] else [])
    ++ (if truthy f.maxWeight then [("max_weight", f.maxWeight)] else [])
    ++ (if truthy f.minHeight then [("min_height", f.minHeight)] else [])
    ++ (if truthy f.maxHeight then [("max_height", f.maxHeight)] else [])
    ++ (if truthy f.minAttack then [("min_attack", f.minAttack)] else [])
    ++ (if truthy f.minDefense then [("min_defense", f.minDefense)] else [])
    ++ (if truthy f.minStamina then [("min_stamina", f.minStamina)] else [])

/-- Outcome of the `fetch` inside `handleSearch`: a parsed response body
(`data.results || []` collapses a missing list to `[]`), or a thrown
network/parse error. -/
inductive FetchOutcome where
  | success (results : List PokemonRecord)
  | failure
deriving DecidableEq

/-- `handleSearch` of src/App.js lines 22–51 as one state transition; the
second component is the HTTP request issued, `none` when no fetch happens.
Guard first (line 26): an all-whitespace query returns before any state is
touched.  Otherwise the fetch runs: on success the results are stored and
the filter panel closed; on error the results are cleared; `isLoading` is
reset in `finally` on both paths. -/
def handleSearch (st : AppState) (outcome : FetchOutcome) :
    AppState × Option (List (String × String)) :=
  if (jsTrim st.searchQuery).data.isEmpty then (st, none)
  else
    match outcome with
    | FetchOutcome.success results =>
      ({ st with isLoading := false, searchResults := results, showFilters := false },
        some (buildSearchParams st.searchQuery st.filters))
    | FetchOutcome.failure =>
      ({ st with isLoading := false, searchResults := [] },
        some (buildSearchParams st.searchQuery st.filters))

/-- A concrete record used to instantiate the search theorems (the spec's
§8 scenario row for Pikachu). -/
def pikachu : PokemonRecord :=
  { number := 25
    name := "Pikachu"
    main_type := "Electric"
    secondary_type := none
    weight := some 6
    height := some 1
    attack := some 55
    defense := some 40
    stamina := some 35
    speed := some 90 }

/-- Criteria demanding attack at least 53 (the spec's §8 scenario). -/
def critAtk53 : FilterCriteria := { min_attack := some 53 }

/-- A record whose attack column is missing, used to separate a zero
bound from an absent bound. -/
def missingno : PokemonRecord :=
  { number := 0
    name := "MissingNo"
    main_type := "Normal"
    secondary_type := none
    weight := some 10
    height := some 3
    attack := none
    defense := some 10
    stamina := some 10
    speed := some 10 }

/-- Every element of a page slice comes from the underlying filtered
sequence. -/
theorem mem_of_mem_pageItems {F : List α} {page psize : Nat} {r : α}
    (h : r ∈ pageItems F page psize) : r ∈ F :=
  List.mem_of_mem_drop ((List.take_sublist _ _).mem h)

/-- An element at index `j < n` of a list lies on its `n`-prefix. -/
theorem getElem_mem_take {l : List α} {j n : Nat} (hj : j < l.length) (hlt : j < n) :
    l[j] ∈ l.take n := by
  have hlen : j < (l.take n).length := by
    simp [List.length_take]
    omega
  have heq : (l.take n)[j] = l[j] := by
    rw [List.getElem_take]
  rw [← heq]
  exact List.getElem_mem hlen

/-- Every member of the filtered sequence lies on some page (its index
divided by the page size). -/
theorem exists_page_mem {F : List α} {psize : Nat} {r : α} (hs : 0 < psize)
    (h : r ∈ F) : ∃ page, r ∈ pageItems F page psize := by
  obtain ⟨i, hi, hig⟩ := List.mem_iff_getElem.mp h
  refine ⟨i / psize + 1, ?_⟩
  unfold pageItems
  rw [Nat.max_eq_right (Nat.succ_le_succ (Nat.zero_le _))]
  have hred : (i / psize + 1 - 1) * psize = psize * (i / psize) := by
    simp [Nat.mul_comm]
  rw [hred]
  have hdm : psize * (i / psize) + i % psize = i := Nat.div_add_mod i psize
  have hml : i % psize < psize := Nat.mod_lt _ hs
  have h1 : i % psize < (F.drop (psize * (i / psize))).length := by
    rw [List.length_drop]
    omega
  have h2 : (F.drop (psize * (i / psize)))[i % psize] = r := by
    rw [List.getElem_drop]
    rw [← hig]
    congr 1
  rw [← h2]
  exact getElem_mem_take h1 hml

/-- A page entirely beyond the data is an empty slice. -/
theorem pageItems_eq_nil {F : List α} {page psize : Nat}
    (h : F.length ≤ (max 1 page - 1) * psize) : pageItems F page psize = [] := by
  unfold pageItems
  rw [List.drop_eq_nil_of_le h]
  exact List.take_nil

/-- The data size is at most `totalPages` many full pages. -/
theorem length_le_totalPages_mul {total psize : Nat} (hs : 0 < psize) :
    total ≤ totalPages total psize * psize := by
  unfold totalPages
  have hdm := Nat.div_add_mod (total + psize - 1) psize
  have hml := Nat.mod_lt (total + psize - 1) hs
  have h1 : total ≤ psize * ((total + psize - 1) / psize) := by omega
  have h2 : psize * ((total + psize - 1) / psize) ≤
      psize * max 1 ((total + psize - 1) / psize) := by
    exact Nat.mul_le_mul_left psize (Nat.le_max_right _ _)
  calc total ≤ psize * max 1 ((total + psize - 1) / psize) := le_trans h1 h2
    _ = max 1 ((total + psize - 1) / psize) * psize := Nat.mul_comm _ _

/-- C1.  For every image byte buffer, two calls of `predict_fallback`
against the same catalog return identical `PredictionResult`s — the same
label, confidence and alternatives — whatever the wall-clock time or call
count of each call. -/
theorem predict_fallback_deterministic (env1 env2 : CallEnv) (b : List Nat) (cat : Catalog) :
    predict_fallback env1 b cat = predict_fallback env2 b cat := rfl

/-- C2.  With a positive page size, requesting a page strictly beyond
`total_pages` yields empty `items` and `has_next = false`, and requesting
page 0 (the only page below 1) behaves exactly as page 1. -/
theorem search_page_out_of_range (records : List PokemonRecord) (c : FilterCriteria)
    (page psize : Nat) (hs : 0 < psize) :
    ((search records c page psize).total_pages < page →
      (search records c page psize).items = [] ∧
        (search records c page psize).has_next = false) ∧
    search records c 0 psize = search records c 1 psize := by
  constructor
  · intro hbeyond
    simp only [search] at hbeyond ⊢
    set F := filteredRecords records c with hF
    set tp := totalPages F.length psize with htp
    have htp1 : 1 ≤ tp := by
      rw [htp]
      unfold totalPages
      omega
    have hmax : max 1 page = page := by omega
    constructor
    · apply pageItems_eq_nil
      rw [hmax]
      have hle : tp ≤ page - 1 := by omega
      have h1 : F.length ≤ tp * psize := length_le_totalPages_mul hs
      have h2 : tp * psize ≤ (page - 1) * psize := Nat.mul_le_mul_right psize hle
      omega
    · rw [hmax]
      simp only [decide_eq_false_iff_not]
      omega
  · simp [search, pageItems]

/-- C2 witness: an empty catalog searched with page size 1; page 5 is
beyond the single (empty) page and page 0 coincides with page 1. -/
theorem search_page_out_of_range_witness :
    0 < 1 ∧
    (((search [] {} 5 1).total_pages < 5 →
        (search [] {} 5 1).items = [] ∧ (search [] {} 5 1).has_next = false) ∧
      search [] {} 0 1 = search [] {} 1 1) :=
  ⟨Nat.one_pos, search_page_out_of_range [] {} 5 1 Nat.one_pos⟩

/-- C3.  With a positive page size, every `PageResult` of `search`
satisfies the invariants: `total_pages = max 1 (ceil(total_count /
page_size))`, at most `page_size` items, and a reported page within
`[1, total_pages]`. -/
theorem search_page_result_invariants (records : List PokemonRecord) (c : FilterCriteria)
    (page psize : Nat) (hs : 0 < psize) :
    (search records c page psize).total_pages =
        max 1 (((search records c page psize).total_count +
          (search records c page psize).page_size - 1) /
            (search records c page psize).page_size) ∧
    (search records c page psize).items.length ≤ (search records c page psize).page_size ∧
    1 ≤ (search records c page psize).page ∧
    (search records c page psize).page ≤ (search records c page psize).total_pages := by
  simp only [search]
  set F := filteredRecords records c with hF
  set tp := totalPages F.length psize with htp
  have htp1 : 1 ≤ tp := by
    rw [htp]
    unfold totalPages
    omega
  refine ⟨?_, ?_, ?_, ?_⟩
  · rw [htp]
    rfl
  · unfold pageItems
    simp [List.length_take]
  · omega
  · omega

/-- C3 witness: the invariants at a concrete one-record catalog with page
size 1. -/
theorem search_page_result_invariants_witness :
    0 < 1 ∧
    ((search [] {} 2 1).total_pages =
        max 1 (((search [] {} 2 1).total_count + (search [] {} 2 1).page_size - 1) /
          (search [] {} 2 1).page_size) ∧
      (search [] {} 2 1).items.length ≤ (search [] {} 2 1).page_size ∧
      1 ≤ (search [] {} 2 1).page ∧
      (search [] {} 2 1).page ≤ (search [] {} 2 1).total_pages) :=
  ⟨Nat.one_pos, search_page_result_invariants [] {} 2 1 Nat.one_pos⟩

/-- C4.  A malformed (non-numeric) string in any numeric filter bound of a
raw search request is treated as an absent bound: the request completes
with exactly the result of the same request without that bound, for each
of the seven numeric filter fields. -/
theorem searchRaw_malformed_bound_ignored (records : List PokemonRecord) (r : RawQuery)
    (page psize : Nat) (s : String) (hmal : parseNat s = none) :
    searchRaw records { r with min_attack := some s } page psize =
        searchRaw records { r with min_attack := none } page psize ∧
    searchRaw records { r with min_defense := some s } page psize =
        searchRaw records { r with min_defense := none } page psize ∧
    searchRaw records { r with min_stamina := some s } page psize =
        searchRaw records { r with min_stamina := none } page psize ∧
    searchRaw records { r with min_weight := some s } page psize =
        searchRaw records { r with min_weight := none } page psize ∧
    searchRaw records { r with max_weight := some s } page psize =
        searchRaw records { r with max_weight := none } page psize ∧
    searchRaw records { r with min_height := some s } page psize =
        searchRaw records { r with min_height := none } page psize ∧
    searchRaw records { r with max_height := some s } page psize =
        searchRaw records { r with max_height := none } page psize := by
  refine ⟨?_, ?_, ?_, ?_, ?_, ?_, ?_⟩ <;>
    simp [searchRaw, criteriaOfRaw, boundOfRaw, hmal]

/-- C4 witness: the malformed bound "7a" is ignored on a concrete
request. -/
theorem searchRaw_malformed_bound_ignored_witness :
    parseNat "7a" = none ∧
    (searchRaw [] { min_attack := some "7a" } 1 10 = searchRaw [] { min_attack := none } 1 10 ∧
      searchRaw [] { min_defense := some "7a" } 1 10 =
        searchRaw [] { min_defense := none } 1 10 ∧
      searchRaw [] { min_stamina := some "7a" } 1 10 =
        searchRaw [] { min_stamina := none } 1 10 ∧
      searchRaw [] { min_weight := some "7a" } 1 10 =
        searchRaw [] { min_weight := none } 1 10 ∧
      searchRaw [] { max_weight := some "7a" } 1 10 =
        searchRaw [] { max_weight := none } 1 10 ∧
      searchRaw [] { min_height := some "7a" } 1 10 =
        searchRaw [] { min_height := none } 1 10 ∧
      searchRaw [] { max_height := some "7a" } 1 10 =
        searchRaw [] { max_height := none } 1 10) :=
  ⟨by decide, searchRaw_malformed_bound_ignored [] {} 1 10 "7a" (by decide)⟩

/-- Indices `h % n`, `(h + 1) % n`, `(h + 2) % n` are pairwise distinct
once `3 ≤ n`. -/
theorem mod_shift_ne {h n k : Nat} (hk : 0 < k) (hkn : k < n) : h % n ≠ (h + k) % n := by
  intro heq
  have hd := (Nat.modEq_iff_dvd' (Nat.le_add_right h k)).mp heq
  have hk' : h + k - h = k := by omega
  rw [hk'] at hd
  have := Nat.le_of_dvd hk hd
  omega

/-- Distinct in-range indices of a duplicate-free list hold distinct
elements. -/
theorem getD_ne_of_nodup {l : List String} (hnd : l.Nodup) {i j : Nat}
    (hi : i < l.length) (hj : j < l.length) (hne : i ≠ j) :
    l.getD i "" ≠ l.getD j "" := by
  rw [List.getD_eq_getElem l "" hi, List.getD_eq_getElem l "" hj]
  intro heq
  exact hne (hnd.getElem_inj_iff.mp heq)

/-- C5.  For a catalog whose label set is duplicate-free with at least
three labels, every fallback `PredictionResult` has exactly three
alternatives, pairwise-distinct labels, strictly descending confidences,
and a first alternative equal to the top-level label and confidence. -/
theorem predict_fallback_alternatives_shape (env : CallEnv) (b : List Nat) (cat : Catalog)
    (hnd : cat.labels.Nodup) (h3 : 3 ≤ cat.labels.length) :
    (predict_fallback env b cat).top3.length = 3 ∧
    (predict_fallback env b cat).top3.head? =
      some ((predict_fallback env b cat).label, (predict_fallback env b cat).confidence) ∧
    List.Pairwise (fun x y => x.1 ≠ y.1) (predict_fallback env b cat).top3 ∧
    List.Pairwise (fun x y => y.2 < x.2) (predict_fallback env b cat).top3 := by
  simp only [predict_fallback]
  set h := hashBytes b with hh
  set n := cat.labels.length with hn
  have hnpos : 0 < n := by omega
  have hi1 : h % n < n := Nat.mod_lt _ hnpos
  have hi2 : (h + 1) % n < n := Nat.mod_lt _ hnpos
  have hi3 : (h + 2) % n < n := Nat.mod_lt _ hnpos
  have h12 : h % n ≠ (h + 1) % n := mod_shift_ne Nat.one_pos (by omega)
  have h13 : h % n ≠ (h + 2) % n := mod_shift_ne (by omega) (by omega)
  have h23 : (h + 1) % n ≠ (h + 2) % n := by
    have := mod_shift_ne (h := h + 1) (n := n) (k := 1) Nat.one_pos (by omega)
    simpa [Nat.add_assoc] using this
  refine ⟨rfl, rfl, ?_, ?_⟩
  · refine List.Pairwise.cons ?_ (List.Pairwise.cons ?_ (List.Pairwise.cons ?_ List.Pairwise.nil))
    · intro y hy
      rcases List.mem_cons.mp hy with hy | hy
      · subst hy
        exact getD_ne_of_nodup hnd hi1 hi2 h12
      · rcases List.mem_cons.mp hy with hy | hy
        · subst hy
          exact getD_ne_of_nodup hnd hi1 hi3 h13
        · exact absurd hy (List.not_mem_nil y)
    · intro y hy
      rcases List.mem_cons.mp hy with hy | hy
      · subst hy
        exact getD_ne_of_nodup hnd hi2 hi3 h23
      · exact absurd hy (List.not_mem_nil y)
    · intro y hy
      exact absurd hy (List.not_mem_nil y)
  · refine List.Pairwise.cons ?_ (List.Pairwise.cons ?_ (List.Pairwise.cons ?_ List.Pairwise.nil))
    · intro y hy
      rcases List.mem_cons.mp hy with hy | hy
      · subst hy
        show 65 + h % 26 - (1 + h % 5) < 65 + h % 26
        omega
      · rcases List.mem_cons.mp hy with hy | hy
        · subst hy
          show 65 + h % 26 - (1 + h % 5) - (1 + h / 5 % 5) < 65 + h % 26
          omega
        · exact absurd hy (List.not_mem_nil y)
    · intro y hy
      rcases List.mem_cons.mp hy with hy | hy
      · subst hy
        show 65 + h % 26 - (1 + h % 5) - (1 + h / 5 % 5) < 65 + h % 26 - (1 + h % 5)
        omega
      · exact absurd hy (List.not_mem_nil y)
    · intro y hy
      exact absurd hy (List.not_mem_nil y)

/-- C5 witness: the alternatives shape at a concrete three-label
catalog and a concrete byte buffer. -/
theorem predict_fallback_alternatives_shape_witness :
    (["bulbasaur", "ivysaur", "venusaur"] : List String).Nodup ∧
    3 ≤ (["bulbasaur", "ivysaur", "venusaur"] : List String).length ∧
    ((predict_fallback ⟨0, 0⟩ [137, 80] ⟨["bulbasaur", "ivysaur", "venusaur"], []⟩).top3.length = 3 ∧
      (predict_fallback ⟨0, 0⟩ [137, 80] ⟨["bulbasaur", "ivysaur", "venusaur"], []⟩).top3.head? =
        some ((predict_fallback ⟨0, 0⟩ [137, 80] ⟨["bulbasaur", "ivysaur", "venusaur"], []⟩).label,
          (predict_fallback ⟨0, 0⟩ [137, 80] ⟨["bulbasaur", "ivysaur", "venusaur"], []⟩).confidence) ∧
      List.Pairwise (fun x y => x.1 ≠ y.1)
        (predict_fallback ⟨0, 0⟩ [137, 80] ⟨["bulbasaur", "ivysaur", "venusaur"], []⟩).top3 ∧
      List.Pairwise (fun x y => y.2 < x.2)
        (predict_fallback ⟨0, 0⟩ [137, 80] ⟨["bulbasaur", "ivysaur", "venusaur"], []⟩).top3) :=
  ⟨by decide, by decide,
    predict_fallback_alternatives_shape ⟨0, 0⟩ [137, 80]
      ⟨["bulbasaur", "ivysaur", "venusaur"], []⟩ (by decide) (by decide)⟩

/-- C6.  With a positive page size, a record appears in the search result
(on some page) exactly when it is in the store and satisfies every set
predicate — the conjunction of the name, type and all inclusive numeric
bound predicates; in particular a record returned under a numeric lower
bound `m` on a stat has that stat present and at least `m`. -/
theorem search_conjunction_semantics (records : List PokemonRecord) (c : FilterCriteria)
    (psize : Nat) (r : PokemonRecord) (hs : 0 < psize) :
    ((∃ page, r ∈ (search records c page psize).items) ↔
      (r ∈ records ∧ namePred c.q r = true ∧ typePred c.type r = true ∧
        minBound c.min_attack r.attack = true ∧ minBound c.min_defense r.defense = true ∧
        minBound c.min_stamina r.stamina = true ∧ minBound c.min_weight r.weight = true ∧
        maxBound c.max_weight r.weight = true ∧ minBound c.min_height r.height = true ∧
        maxBound c.max_height r.height = true)) ∧
    (∀ page m, r ∈ (search records c page psize).items → c.min_attack = some m →
      ∃ v, r.attack = some v ∧ m ≤ v) ∧
    (∀ page m, r ∈ (search records c page psize).items → c.min_defense = some m →
      ∃ v, r.defense = some v ∧ m ≤ v) ∧
    (∀ page m, r ∈ (search records c page psize).items → c.min_stamina = some m →
      ∃ v, r.stamina = some v ∧ m ≤ v) := by
  have hmemF : ∀ page, r ∈ (search records c page psize).items →
      r ∈ filteredRecords records c := by
    intro page hmem
    exact mem_of_mem_pageItems hmem
  have hfilter : r ∈ filteredRecords records c ↔
      r ∈ records ∧ matchesCriteria c r = true := by
    unfold filteredRecords
    simp [List.mem_filter]
  have hsplit : matchesCriteria c r = true ↔
      (namePred c.q r = true ∧ typePred c.type r = true ∧
        minBound c.min_attack r.attack = true ∧ minBound c.min_defense r.defense = true ∧
        minBound c.min_stamina r.stamina = true ∧ minBound c.min_weight r.weight = true ∧
        maxBound c.max_weight r.weight = true ∧ minBound c.min_height r.height = true ∧
        maxBound c.max_height r.height = true) := by
    unfold matchesCriteria
    simp only [Bool.and_eq_true]
    tauto
  have hminB : ∀ (bnd : Option Nat) (fld : Option Nat) (m : Nat),
      minBound bnd fld = true → bnd = some m → ∃ v, fld = some v ∧ m ≤ v := by
    intro bnd fld m hmb hbnd
    subst hbnd
    cases fld with
    | none => simp [minBound] at hmb
    | some v =>
      refine ⟨v, rfl, ?_⟩
      simpa [minBound] using hmb
  constructor
  · constructor
    · rintro ⟨page, hmem⟩
      have hF := hmemF page hmem
      obtain ⟨hrec, hmatch⟩ := hfilter.mp hF
      exact ⟨hrec, hsplit.mp hmatch⟩
    · rintro ⟨hrec, hconj⟩
      have hF : r ∈ filteredRecords records c := hfilter.mpr ⟨hrec, hsplit.mpr hconj⟩
      obtain ⟨page, hpage⟩ := exists_page_mem hs hF
      exact ⟨page, hpage⟩
  · refine ⟨?_, ?_, ?_⟩ <;>
      intro page m hmem hbnd <;>
      obtain ⟨-, hmatch⟩ := hfilter.mp (hmemF page hmem)
    · exact hminB _ _ m (hsplit.mp hmatch).2.2.1 hbnd
    · exact hminB _ _ m (hsplit.mp hmatch).2.2.2.1 hbnd
    · exact hminB _ _ m (hsplit.mp hmatch).2.2.2.2.1 hbnd

/-- C6 witness: the conjunction semantics at the concrete one-record
store and the attack-at-least-53 criteria. -/
theorem search_conjunction_semantics_witness :
    0 < 1 ∧
    (((∃ page, pikachu ∈ (search [pikachu] critAtk53 page 1).items) ↔
      (pikachu ∈ [pikachu] ∧ namePred critAtk53.q pikachu = true ∧
        typePred critAtk53.type pikachu = true ∧
        minBound critAtk53.min_attack pikachu.attack = true ∧
        minBound critAtk53.min_defense pikachu.defense = true ∧
        minBound critAtk53.min_stamina pikachu.stamina = true ∧
        minBound critAtk53.min_weight pikachu.weight = true ∧
        maxBound critAtk53.max_weight pikachu.weight = true ∧
        minBound critAtk53.min_height pikachu.height = true ∧
        maxBound critAtk53.max_height pikachu.height = true)) ∧
    (∀ page m, pikachu ∈ (search [pikachu] critAtk53 page 1).items →
      critAtk53.min_attack = some m → ∃ v, pikachu.attack = some v ∧ m ≤ v) ∧
    (∀ page m, pikachu ∈ (search [pikachu] critAtk53 page 1).items →
      critAtk53.min_defense = some m → ∃ v, pikachu.defense = some v ∧ m ≤ v) ∧
    (∀ page m, pikachu ∈ (search [pikachu] critAtk53 page 1).items →
      critAtk53.min_stamina = some m → ∃ v, pikachu.stamina = some v ∧ m ≤ v)) :=
  ⟨Nat.one_pos, search_conjunction_semantics [pikachu] critAtk53 1 pikachu Nat.one_pos⟩

/-- C7.  An absent numeric bound is no constraint — its predicate accepts
every record — while a bound of zero is applied as a real predicate:
on a store holding one record whose attack column is missing, searching
with `min_attack = 0` excludes it, whereas omitting the bound returns it,
so the two criteria are behaviorally distinct. -/
theorem absent_bound_ne_zero_bound :
    (∀ fld : Option Nat, minBound none fld = true) ∧
    (search [missingno] { min_attack := some 0 } 1 10).items = [] ∧
    (search [missingno] { min_attack := none } 1 10).items = [missingno] ∧
    (search [missingno] { min_attack := some 0 } 1 10).items ≠
      (search [missingno] { min_attack := none } 1 10).items := by
  refine ⟨fun fld => rfl, by decide, by decide, by decide⟩

/-- C8.  On the predict path, unreadable bytes are the one condition
signalled as an error (the distinct bad-input condition); readable bytes
always produce an ordinary result, whatever the model state; a missing
model and an invocation failure both recover locally to the deterministic
fallback; and the fallback path itself never fails on readable bytes. -/
theorem predict_error_taxonomy (classifier : Option (List Nat → Option RawPred))
    (env : CallEnv) (b : List Nat) (cat : Catalog) :
    (isValidImage b = false →
      predict classifier env b cat = Except.error PredictError.badInput) ∧
    (isValidImage b = true → (predict classifier env b cat).isOk = true) ∧
    (isValidImage b = true →
      predict none env b cat = Except.ok (predict_fallback env b cat)) ∧
    (∀ f, classifier = some f → f b = none → isValidImage b = true →
      predict classifier env b cat = Except.ok (predict_fallback env b cat)) := by
  refine ⟨?_, ?_, ?_, ?_⟩
  · intro hinv
    simp [predict, hinv]
  · intro hval
    cases classifier with
    | none =>
      simp [predict, hval]
      rfl
    | some f =>
      cases hfb : f b with
      | none =>
        simp [predict, hval, hfb]
        rfl
      | some rp =>
        simp [predict, hval, hfb]
        rfl
  · intro hval
    simp [predict, hval]
  · intro f hcl hfb hval
    subst hcl
    simp [predict, hval, hfb]

/-- C8 witness: a non-image buffer is rejected as bad input; a PNG-tagged
buffer on the model-less path returns the fallback result as an ordinary
success. -/
theorem predict_error_taxonomy_witness :
    (isValidImage [0, 1] = false ∧
      predict none ⟨0, 0⟩ [0, 1] ⟨["pikachu"], []⟩ = Except.error PredictError.badInput) ∧
    (isValidImage [137, 80, 78, 71, 9] = true ∧
      predict none ⟨0, 0⟩ [137, 80, 78, 71, 9] ⟨["pikachu"], []⟩ =
        Except.ok (predict_fallback ⟨0, 0⟩ [137, 80, 78, 71, 9] ⟨["pikachu"], []⟩)) :=
  ⟨⟨by decide, (predict_error_taxonomy none ⟨0, 0⟩ [0, 1] ⟨["pikachu"], []⟩).1 (by decide)⟩,
    ⟨by decide,
      (predict_error_taxonomy none ⟨0, 0⟩ [137, 80, 78, 71, 9] ⟨["pikachu"], []⟩).2.2.1
        (by decide)⟩⟩

/-- C9.  When the trimmed search query is empty, `handleSearch` issues no
HTTP request and leaves the whole component state — `searchResults`,
`isLoading`, `showFilters`, the query and the filters — unchanged,
whatever the would-be fetch outcome. -/
theorem handleSearch_empty_query_noop (st : AppState) (outcome : FetchOutcome)
    (h : jsTrim st.searchQuery = "") : handleSearch st outcome = (st, none) := by
  have hempty : (jsTrim st.searchQuery).data.isEmpty = true := by
    rw [h]
    rfl
  simp [handleSearch, hempty]

/-- C9 witness: a whitespace-only query is a no-op at a concrete state. -/
theorem handleSearch_empty_query_noop_witness :
    jsTrim "  " = "" ∧
    handleSearch
        { searchResults := [], isLoading := false, searchQuery := "  ",
          showFilters := true, filters := initialFilters }
        (FetchOutcome.success [pikachu]) =
      ({ searchResults := [], isLoading := false, searchQuery := "  ",
          showFilters := true, filters := initialFilters }, none) :=
  ⟨by decide,
    handleSearch_empty_query_noop
      { searchResults := [], isLoading := false, searchQuery := "  ",
        showFilters := true, filters := initialFilters }
      (FetchOutcome.success [pikachu]) (by decide)⟩

/-- C10.  Under the initial filter state, every search that is actually
issued (non-blank query) carries exactly `q` plus `min_attack=0`,
`min_defense=0` and `min_stamina=0` — the string "0" stat minimums are
truthy and appended, while the empty-string type, weight and height
bounds are omitted. -/
theorem handleSearch_default_filters_params (st : AppState) (outcome : FetchOutcome)
    (hf : st.filters = initialFilters)
    (hq : (jsTrim st.searchQuery).data.isEmpty = false) :
    (handleSearch st outcome).2 =
      some [("q", st.searchQuery), ("min_attack", "0"), ("min_defense", "0"),
        ("min_stamina", "0")] := by
  cases outcome with
  | success results =>
    simp [handleSearch, hq, hf, buildSearchParams, initialFilters, truthy]
  | failure =>
    simp [handleSearch, hq, hf, buildSearchParams, initialFilters, truthy]

/-- C10 witness: the issued request at a concrete state with the default
filters and the query "pika". -/
theorem handleSearch_default_filters_params_witness :
    ({ searchResults := [], isLoading := false, searchQuery := "pika",
        showFilters := false, filters := initialFilters } : AppState).filters =
      initialFilters ∧
    (jsTrim "pika").data.isEmpty = false ∧
    (handleSearch
        { searchResults := [], isLoading := false, searchQuery := "pika",
          showFilters := false, filters := initialFilters } FetchOutcome.failure).2 =
      some [("q", "pika"), ("min_attack", "0"), ("min_defense", "0"),
        ("min_stamina", "0")] :=
  ⟨rfl, by decide,
    handleSearch_default_filters_params
      { searchResults := [], isLoading := false, searchQuery := "pika",
        showFilters := false, filters := initialFilters }
      FetchOutcome.failure rfl (by decide)⟩
